import Mathlib

/-!
Verification development for `scripts/fetch_data.py`: a paginated OHLCV
fetch engine (`fetch_ohlcv_data`) and an incremental CSV merge store
(`save_to_csv`, `load_existing_data`, `merge_and_save_data`).

Modelling conventions:
* Strings are `List Char` (`Str`); Python's single-character `str.replace`
  and `str.lower` are character maps.
* Timestamps are `Int` milliseconds; prices/volumes are `Rat` (the code
  carries Python floats opaquely — no claim performs price arithmetic).
* The CCXT exchange is an oracle `p : Int → Nat → Resp` giving the
  provider's response to the call `exchange.fetch_ohlcv(..., since=cursor)`
  where the second argument is the global call counter (so any sequence of
  responses is expressible).  `Resp.netErr` is `ccxt.NetworkError`,
  `Resp.exchErr` is `ccxt.ExchangeError`, `Resp.unknownErr` any other
  exception.
* Side effects (backoff `time.sleep`, rate-limit pauses, filesystem calls,
  console diagnostics) are returned as explicit traces.
* The outer `while current_start < end_time` loop is given fuel (a bound on
  the number of iterations); exhausting fuel is reported as
  `ExitKind.outOfFuel`, every genuine exit of the Python loop by another
  `ExitKind` constructor.
-/

/-- Python strings, modelled as lists of characters. -/
abbrev Str := List Char

/-- Coerce a Lean string literal to the `Str` model. -/
def str (s : String) : Str := s.toList

/-- One OHLCV record `[timestamp, open, high, low, close, volume]`
(`candle[0] .. candle[5]` in the Python source). -/
structure Candle where
  t : Int
  o : Rat
  h : Rat
  l : Rat
  c : Rat
  v : Rat
deriving DecidableEq, Repr

/-- One CSV row: `symbol,interval_sc,open_timestamp_ms,open,high,low,close,volume`
(see `save_to_csv` in the source). -/
structure Row where
  symbol : Str
  interval_sc : Nat
  open_timestamp_ms : Int
  o : Rat
  h : Rat
  l : Rat
  c : Rat
  v : Rat
deriving DecidableEq, Repr

/-- Source line 74: `convert_symbol_to_csv_format`, Python
`symbol.replace("/", "-")` (single-char replace = character map). -/
def convert_symbol_to_csv_format (symbol : Str) : Str :=
  symbol.map fun ch => if ch = '/' then '-' else ch

/-- Source line 81: `convert_csv_to_ccxt_format`, Python
`symbol.replace("-", "/")`. -/
def convert_csv_to_ccxt_format (symbol : Str) : Str :=
  symbol.map fun ch => if ch = '-' then '/' else ch

/-- Source line 17: the `TIMEFRAME_TO_SECONDS` dictionary. -/
def TIMEFRAME_TO_SECONDS : List (Str × Nat) :=
  [(str "1m", 60), (str "3m", 180), (str "5m", 300), (str "15m", 900),
   (str "30m", 1800), (str "1h", 3600), (str "2h", 7200), (str "4h", 14400),
   (str "6h", 21600), (str "12h", 43200), (str "1d", 86400),
   (str "3d", 259200), (str "1w", 604800)]

/-- Dictionary lookup `TIMEFRAME_TO_SECONDS[timeframe]` (`none` = `KeyError`). -/
def timeframeSeconds (timeframe : Str) : Option Nat :=
  TIMEFRAME_TO_SECONDS.lookup timeframe

/-- Python `.lower()` as a character map. -/
def str_lower (s : Str) : Str := s.map Char.toLower

/-- Source lines 232/289: the dataset filename
`f"{exchange_name}_{csv_symbol.lower().replace('/', '-')}_{timeframe}.csv"`. -/
def dataset_filename (exchange_name csvSym timeframe : Str) : Str :=
  exchange_name ++ str "_" ++ convert_symbol_to_csv_format (str_lower csvSym)
    ++ str "_" ++ timeframe ++ str ".csv"

/-- `os.path.join(output_dir, filename)` (POSIX). -/
def os_path_join (dir fname : Str) : Str := dir ++ str "/" ++ fname

/-- The full `output_path` of the dataset for a series key. -/
def dataset_path (exchange_name csvSym timeframe output_dir : Str) : Str :=
  os_path_join output_dir (dataset_filename exchange_name csvSym timeframe)

/-! ## Generic key-based deduplication and sorting

The fetch engine deduplicates with a Python dict (keep the FIRST candle seen
per timestamp, source lines 175-179) and then sorts by timestamp (line 182);
the merge store deduplicates with polars `unique(subset=["open_timestamp_ms"],
keep="last")` (keep the LAST row per timestamp, line 321) and then sorts
(line 323).  At every call site the keys are pairwise distinct after
deduplication, so the (stable) sort's output is the unique ascending
arrangement; we model the sort as insertion sort by the key. -/

/-- Keep the first element per key, skipping keys in `seen` (the Python
dict-based dedup of source lines 175-179, generalised over the key). -/
def dedupFirstBy (key : α → Int) : List α → List Int → List α
  | [], _ => []
  | x :: xs, seen =>
    if key x ∈ seen then dedupFirstBy key xs seen
    else x :: dedupFirstBy key xs (key x :: seen)

/-- Keep the last element per key (polars `unique(..., keep="last")`). -/
def dedupLastBy (key : α → Int) (l : List α) : List α :=
  (dedupFirstBy key l.reverse []).reverse

/-- Ordered insertion by key. -/
def insertByKey (key : α → Int) (x : α) : List α → List α
  | [] => [x]
  | y :: ys => if key x ≤ key y then x :: y :: ys else y :: insertByKey key x ys

/-- Sort ascending by key (Python `sorted(..., key=lambda x: x[0])`,
polars `.sort("open_timestamp_ms")`). -/
def sortByKey (key : α → Int) : List α → List α
  | [] => []
  | x :: xs => insertByKey key x (sortByKey key xs)

/-- Deduplicate keep-last by key, then sort ascending by key: the merge
combination of source lines 317-323 (`pl.concat` ∘ `unique` ∘ `sort`),
generalised over the element type. -/
def mergeByKey (key : α → Int) (ex nw : List α) : List α :=
  sortByKey key (dedupLastBy key (ex ++ nw))

/-! ## The paginated fetch engine (source lines 88-184) -/

/-- Outcome of one `exchange.fetch_ohlcv` call. -/
inductive Resp where
  | ok (batch : List Candle)
  | netErr
  | exchErr
  | unknownErr
deriving DecidableEq

/-- One blocking sleep performed by the engine. -/
inductive SleepEv where
  | backoff (n : Nat)
  | ratePause
deriving DecidableEq, Repr

/-- How the inner retry loop (source lines 126-166) ended. -/
inductive InnerOutcome where
  | success (filtered : List Candle)
  | stopEmpty
  | stopUnknown
  | exhausted
deriving DecidableEq, Repr

/-- Trace of one run of the inner retry loop. -/
structure InnerRes where
  outcome : InnerOutcome
  calls : Nat
  sleeps : List SleepEv
deriving DecidableEq, Repr

/-- The inner retry loop `while retry_count < max_retries and not success`
(source lines 122-166).  `fuel = max_retries - retry_count` and `rc` is the
current `retry_count`; `ci` the global call counter.  On `ok batch`: an empty
raw batch or an empty filtered batch breaks with `success = False`
(`stopEmpty`); otherwise the filtered batch is returned (`success`), pacing by
the exchange's rate limit `rl`.  Network/exchange errors increment
`retry_count` and sleep `2 ** retry_count`; any other exception breaks
immediately (`stopUnknown`). -/
def innerLoop (p : Int → Nat → Resp) (rl : Nat) (endT : Int) (cursor : Int) :
    Nat → Nat → Nat → InnerRes
  | _, 0, _ => ⟨.exhausted, 0, []⟩
  | ci, fuel + 1, rc =>
    match p cursor ci with
    | .ok batch =>
      if batch.isEmpty then ⟨.stopEmpty, 1, []⟩
      else
        let filtered := batch.filter fun cd => decide (cd.t < endT)
        if filtered.isEmpty then ⟨.stopEmpty, 1, []⟩
        else ⟨.success filtered, 1, if rl ≠ 0 then [.ratePause] else []⟩
    | .netErr =>
      let r := innerLoop p rl endT cursor (ci + 1) fuel (rc + 1)
      ⟨r.outcome, r.calls + 1, .backoff (2 ^ (rc + 1)) :: r.sleeps⟩
    | .exchErr =>
      let r := innerLoop p rl endT cursor (ci + 1) fuel (rc + 1)
      ⟨r.outcome, r.calls + 1, .backoff (2 ^ (rc + 1)) :: r.sleeps⟩
    | .unknownErr => ⟨.stopUnknown, 1, []⟩

/-- `filtered_ohlcv[-1][0]`: timestamp of the last candle (only used on
nonempty lists). -/
def lastT (l : List Candle) : Int :=
  match l.getLast? with
  | some cd => cd.t
  | none => 0

/-- How the outer pagination loop ended. -/
inductive ExitKind where
  | boundary
  | stopEmpty
  | exhausted
  | stopUnknown
  | outOfFuel
deriving DecidableEq, Repr

/-- Trace of a full run of `fetch_ohlcv_data`'s pagination loop. -/
structure FetchRes where
  data : List Candle
  exit : ExitKind
  calls : Nat
  sleeps : List SleepEv
deriving DecidableEq, Repr

/-- The outer pagination loop `while current_start < end_time`
(source lines 122-170): run the retry loop at the cursor; on success append
the filtered batch to `all_data` and advance
`current_start = filtered_ohlcv[-1][0] + timeframe_ms`; on any non-success
break (`if not success: break` — this covers empty batches, retry exhaustion
and unclassified errors alike). -/
def outerLoop (p : Int → Nat → Resp) (rl maxR : Nat) (endT bucket : Int) :
    Nat → Int → Nat → FetchRes
  | 0, cursor, _ =>
    ⟨[], if cursor < endT then ExitKind.outOfFuel else ExitKind.boundary, 0, []⟩
  | fuel + 1, cursor, ci =>
    if cursor < endT then
      match innerLoop p rl endT cursor ci maxR 0 with
      | ⟨.success filtered, calls, sleeps⟩ =>
        let rest :=
          outerLoop p rl maxR endT bucket fuel (lastT filtered + bucket) (ci + calls)
        ⟨filtered ++ rest.data, rest.exit, calls + rest.calls, sleeps ++ rest.sleeps⟩
      | ⟨.stopEmpty, calls, sleeps⟩ => ⟨[], ExitKind.stopEmpty, calls, sleeps⟩
      | ⟨.stopUnknown, calls, sleeps⟩ => ⟨[], ExitKind.stopUnknown, calls, sleeps⟩
      | ⟨.exhausted, calls, sleeps⟩ => ⟨[], ExitKind.exhausted, calls, sleeps⟩
    else ⟨[], ExitKind.boundary, 0, []⟩

/-- The instrumented run of `fetch_ohlcv_data` from `start_time`
(`bucket = TIMEFRAME_TO_SECONDS[timeframe] * 1000`, source line 114). -/
def fetchTrace (p : Int → Nat → Resp) (rl maxR : Nat)
    (startT endT bucket : Int) (fuel : Nat) : FetchRes :=
  outerLoop p rl maxR endT bucket fuel startT 0

/-- The return value of `fetch_ohlcv_data` (source lines 174-184): the
accumulated data deduplicated by timestamp keeping the first occurrence
(Python dict) and sorted ascending by timestamp.  The Python function returns
this bare list whatever way the loop ended. -/
def fetch_ohlcv_data (p : Int → Nat → Resp) (rl maxR : Nat)
    (startT endT bucket : Int) (fuel : Nat) : List Candle :=
  sortByKey Candle.t (dedupFirstBy Candle.t (fetchTrace p rl maxR startT endT bucket fuel).data [])

/-! ## The incremental merge store (source lines 187-337) -/

/-- State of the dataset file at `output_path` before the save.
`pl.read_csv` (line 270) distinguishes three outcomes on an existing file:
it raises (`unreadable` — the `except` clause catches this), it parses into a
frame whose schema matches the dataset layout (`present rows`), or it parses
into a frame of some other schema (`garbled` — e.g. a file with a wrong
header such as `foo,bar`, or a right-named file in which one garbled value
flips a column's dtype).  A garbled frame carries only what the code later
inspects: a description of its wrong schema and its `len` (number of rows). -/
inductive PriorState where
  | absent
  | unreadable
  | present (rows : List Row)
  | garbled (schemaDesc : Str) (height : Nat)
deriving DecidableEq

/-- What `load_existing_data` hands back when `pl.read_csv` succeeds: a
polars frame whose schema either conforms to the dataset layout (so it is a
list of rows) or does not (then only its schema description and `len`
matter — `pl.concat` with the conforming new frame will raise before any row
is read). -/
inductive LoadedFrame where
  | conforming (rows : List Row)
  | nonconforming (schemaDesc : Str) (height : Nat)
deriving DecidableEq

/-- `len(existing_df)`. -/
def LoadedFrame.height : LoadedFrame → Nat
  | .conforming rows => rows.length
  | .nonconforming _ h => h

/-- Console diagnostics emitted by the store. -/
inductive Diag where
  | noDataToSave
  | readFailWarning
deriving DecidableEq, Repr

/-- Uncaught Python exceptions the store can terminate with:
`TIMEFRAME_TO_SECONDS[timeframe]` raises `KeyError` on an unknown timeframe
(lines 207/298), and `pl.concat([existing_df, new_df])` (line 317) raises a
shape/schema error when the loaded frame's columns or dtypes do not match
the new frame — neither is caught inside `save_to_csv` or
`merge_and_save_data`. -/
inductive PyErr where
  | keyError
  | concatSchemaError
deriving DecidableEq, Repr

/-- Filesystem operations performed by the store.  The code performs only
`os.makedirs` and a direct `df.write_csv(output_path)`; the `renameTo`
constructor exists so that the absence of any temp-file-plus-rename pattern
is expressible. -/
inductive FsOp where
  | makedirs (dir : Str)
  | writeCsvTo (path : Str)
  | renameTo (src dst : Str)
deriving DecidableEq

/-- Whether a filesystem operation is a rename/replace. -/
def FsOp.isRen : FsOp → Bool
  | .renameTo _ _ => true
  | _ => false

/-- Result of a save/merge call: the rows written (`none` when nothing was
written), the diagnostics printed, the filesystem operations performed, and
`raised = some e` when the Python function terminated with the uncaught
exception `e` instead of returning (`result`, `diags` and `effects` then
describe what happened before the raise). -/
structure SaveOut where
  result : Option (List Row)
  diags : List Diag
  effects : List FsOp
  raised : Option PyErr
deriving DecidableEq

/-- `os.path.exists(output_path)` per prior state. -/
def fileExists : PriorState → Bool
  | .absent => false
  | _ => true

/-- Source line 264: `load_existing_data` — `pl.read_csv` wrapped in
`try/except`; a read that raises prints `读取现有文件失败` (a warning
diagnostic) and returns `None`.  A corrupt *but parseable* file does not
raise here: `pl.read_csv` returns a frame of whatever schema the file has,
and this function passes it through untouched. -/
def load_existing_data : PriorState → Option LoadedFrame × List Diag
  | .absent => (none, [])
  | .unreadable => (none, [Diag.readFailWarning])
  | .present rows => (some (LoadedFrame.conforming rows), [])
  | .garbled d h => (some (LoadedFrame.nonconforming d h), [])

/-- Conversion of one fetched candle to a CSV row (source lines 211-223 and
300-312: `int(candle[0])`, `float(candle[1])`, ...). -/
def candleToRow (csvSym : Str) (isc : Nat) (cd : Candle) : Row :=
  { symbol := csvSym, interval_sc := isc, open_timestamp_ms := cd.t,
    o := cd.o, h := cd.h, l := cd.l, c := cd.c, v := cd.v }

/-- Source line 187: `save_to_csv`.  Empty data prints `没有数据可保存` and
returns `None`; otherwise the rows are built from the candles verbatim (no
dedup or sort here), the directory is created and the CSV written directly to
`output_path`. -/
def save_to_csv (data : List Candle)
    (exchange_name symbol timeframe output_dir : Str) : SaveOut :=
  match data with
  | [] => ⟨none, [Diag.noDataToSave], [], none⟩
  | _ :: _ =>
    match timeframeSeconds timeframe with
    | none => ⟨none, [], [], some PyErr.keyError⟩
    | some isc =>
      let csvSym := convert_symbol_to_csv_format symbol
      ⟨some (data.map (candleToRow csvSym isc)), [],
       [FsOp.makedirs output_dir,
        FsOp.writeCsvTo (dataset_path exchange_name csvSym timeframe output_dir)], none⟩

/-- Prefix extra diagnostics onto a save result. -/
def withDiags (ds : List Diag) (s : SaveOut) : SaveOut :=
  { s with diags := ds ++ s.diags }

/-- The merge of existing rows with new rows: `pl.concat`, then
`unique(subset=["open_timestamp_ms"], keep="last")`, then
`sort("open_timestamp_ms")` (source lines 317-323). -/
def mergeRows (ex nw : List Row) : List Row :=
  mergeByKey Row.open_timestamp_ms ex nw

/-- Source line 277: `merge_and_save_data`.  With `incremental` set and the
file present, load it; when the load returned a frame with `len > 0`,
convert the new candles to rows (lines 299-313) and run
`pl.concat([existing_df, new_df])` (line 317): if the loaded frame's schema
conforms to the new frame's, dedup keep-last on `open_timestamp_ms`, sort,
and write the result directly to `output_path`; if it does not conform —
the corrupt-but-parseable prior — `pl.concat` raises a shape/schema error
that nothing here catches, so the call terminates with an uncaught
exception, writes nothing and prints no warning.  When the load returned
`None` or an empty frame, fall through to `save_to_csv`. -/
def merge_and_save_data (new_data : List Candle)
    (exchange_name symbol timeframe output_dir : Str)
    (prior : PriorState) (incremental : Bool) : SaveOut :=
  let csvSym := convert_symbol_to_csv_format symbol
  if incremental && fileExists prior then
    match load_existing_data prior with
    | (some existing_df, ld) =>
      if existing_df.height == 0 then
        withDiags ld (save_to_csv new_data exchange_name symbol timeframe output_dir)
      else
        match timeframeSeconds timeframe with
        | none => ⟨none, ld, [], some PyErr.keyError⟩
        | some isc =>
          let new_rows := new_data.map (candleToRow csvSym isc)
          match existing_df with
          | .conforming existing_rows =>
            ⟨some (mergeRows existing_rows new_rows), ld,
             [FsOp.makedirs output_dir,
              FsOp.writeCsvTo (dataset_path exchange_name csvSym timeframe output_dir)],
             none⟩
          | .nonconforming _ _ => ⟨none, ld, [], some PyErr.concatSchemaError⟩
    | (none, ld) =>
      withDiags ld (save_to_csv new_data exchange_name symbol timeframe output_dir)
  else save_to_csv new_data exchange_name symbol timeframe output_dir

/-! ## Generic lemmas about key-based dedup, sort and merge -/

theorem mem_of_head?_eq {l : List α} {a : α} (h : l.head? = some a) : a ∈ l := by
  cases l with
  | nil => simp at h
  | cons x xs => simp at h; simp [h]

theorem mem_of_getLast?_eq {l : List α} {a : α} (h : l.getLast? = some a) : a ∈ l :=
  List.mem_of_mem_getLast? (by simp [h])

theorem mem_dedupFirstBy {key : α → Int} :
    ∀ (l : List α) (seen : List Int) (x : α),
      x ∈ dedupFirstBy key l seen ↔
        key x ∉ seen ∧ (l.filter fun y => key y == key x).head? = some x := by
  intro l
  induction l with
  | nil => intro seen x; simp [dedupFirstBy]
  | cons y ys ih =>
    intro seen x
    by_cases hk : key y = key x
    · by_cases hy : key y ∈ seen
      · rw [dedupFirstBy, if_pos hy, ih]
        constructor
        · rintro ⟨hns, _⟩
          exact absurd (hk ▸ hy) hns
        · rintro ⟨hns, _⟩
          exact absurd (hk ▸ hy) hns
      · rw [dedupFirstBy, if_neg hy]
        constructor
        · intro hx
          rcases List.mem_cons.mp hx with rfl | hx'
          · refine ⟨fun hc => hy (hk ▸ hc), ?_⟩
            simp [List.filter_cons, hk]
          · obtain ⟨hns, _⟩ := (ih (key y :: seen) x).mp hx'
            exact absurd (List.mem_cons_self _ _) (hk ▸ hns)
        · rintro ⟨hns, hhd⟩
          rw [List.filter_cons] at hhd
          rw [if_pos (by simp [hk])] at hhd
          simp only [List.head?_cons, Option.some.injEq] at hhd
          exact hhd ▸ List.mem_cons_self _ _
    · have hfc : ((y :: ys).filter fun z => key z == key x) =
        ys.filter fun z => key z == key x := by
        rw [List.filter_cons, if_neg (by simp [hk])]
      by_cases hy : key y ∈ seen
      · rw [dedupFirstBy, if_pos hy, ih, hfc]
      · rw [dedupFirstBy, if_neg hy]
        rw [hfc]
        constructor
        · intro hx
          rcases List.mem_cons.mp hx with rfl | hx'
          · exact absurd rfl hk
          · obtain ⟨hns, hhd⟩ := (ih (key y :: seen) x).mp hx'
            exact ⟨fun hc => hns (List.mem_cons_of_mem _ hc), hhd⟩
        · rintro ⟨hns, hhd⟩
          refine List.mem_cons_of_mem _ ((ih (key y :: seen) x).mpr ⟨?_, hhd⟩)
          intro hc
          rcases List.mem_cons.mp hc with hc' | hc'
          · exact hk hc'.symm
          · exact hns hc'

theorem dedupFirstBy_keys (key : α → Int) :
    ∀ (l : List α) (seen : List Int),
      ((dedupFirstBy key l seen).map key).Nodup ∧
        ∀ x ∈ dedupFirstBy key l seen, key x ∉ seen := by
  intro l
  induction l with
  | nil => intro seen; simp [dedupFirstBy]
  | cons y ys ih =>
    intro seen
    by_cases hy : key y ∈ seen
    · rw [dedupFirstBy, if_pos hy]; exact ih seen
    · rw [dedupFirstBy, if_neg hy]
      obtain ⟨hnd, hseen⟩ := ih (key y :: seen)
      refine ⟨?_, ?_⟩
      · simp only [List.map_cons, List.nodup_cons]
        refine ⟨?_, hnd⟩
        intro hmem
        obtain ⟨x, hx, hkx⟩ := List.mem_map.mp hmem
        exact (hseen x hx) (by simp [hkx])
      · intro x hx
        rcases List.mem_cons.mp hx with rfl | hx'
        · exact hy
        · exact fun hc => hseen x hx' (List.mem_cons_of_mem _ hc)

theorem mem_of_mem_dedupFirstBy {key : α → Int} {l : List α} {seen : List Int} {x : α}
    (h : x ∈ dedupFirstBy key l seen) : x ∈ l :=
  List.mem_of_mem_filter (mem_of_head?_eq ((mem_dedupFirstBy l seen x).mp h).2)

theorem mem_dedupLastBy {key : α → Int} (l : List α) (x : α) :
    x ∈ dedupLastBy key l ↔ (l.filter fun y => key y == key x).getLast? = some x := by
  rw [dedupLastBy, List.mem_reverse, mem_dedupFirstBy]
  rw [List.filter_reverse, List.head?_reverse]
  simp

theorem dedupLastBy_keys_nodup (key : α → Int) (l : List α) :
    ((dedupLastBy key l).map key).Nodup := by
  rw [dedupLastBy, List.map_reverse, List.nodup_reverse]
  exact (dedupFirstBy_keys key l.reverse []).1

theorem insertByKey_perm (key : α → Int) (x : α) (l : List α) :
    List.Perm (insertByKey key x l) (x :: l) := by
  induction l with
  | nil => simp [insertByKey]
  | cons y ys ih =>
    rw [insertByKey]
    by_cases h : key x ≤ key y
    · rw [if_pos h]
    · rw [if_neg h]
      exact (ih.cons y).trans (List.Perm.swap x y ys)

theorem sortByKey_perm (key : α → Int) (l : List α) :
    List.Perm (sortByKey key l) l := by
  induction l with
  | nil => simp [sortByKey]
  | cons x xs ih => exact (insertByKey_perm key x (sortByKey key xs)).trans (ih.cons x)

theorem pairwise_le_insertByKey (key : α → Int) (x : α) (l : List α)
    (h : l.Pairwise fun a b => key a ≤ key b) :
    (insertByKey key x l).Pairwise fun a b => key a ≤ key b := by
  induction l with
  | nil => simp [insertByKey]
  | cons y ys ih =>
    rw [insertByKey]
    rcases List.pairwise_cons.mp h with ⟨hy, hys⟩
    by_cases hle : key x ≤ key y
    · rw [if_pos hle]
      refine List.pairwise_cons.mpr ⟨?_, h⟩
      intro b hb
      rcases List.mem_cons.mp hb with rfl | hb'
      · exact hle
      · exact hle.trans (hy b hb')
    · rw [if_neg hle]
      refine List.pairwise_cons.mpr ⟨?_, ih hys⟩
      intro b hb
      have hmem : b ∈ x :: ys := (insertByKey_perm key x ys).mem_iff.mp hb
      rcases List.mem_cons.mp hmem with rfl | hb'
      · omega
      · exact hy b hb'

theorem sortByKey_pairwise_le (key : α → Int) (l : List α) :
    (sortByKey key l).Pairwise fun a b => key a ≤ key b := by
  induction l with
  | nil => simp [sortByKey]
  | cons x xs ih => exact pairwise_le_insertByKey key x _ ih

theorem keys_nodup_of_perm {key : α → Int} {l₁ l₂ : List α} (hp : List.Perm l₁ l₂)
    (h : (l₂.map key).Nodup) : (l₁.map key).Nodup :=
  ((hp.map key).nodup_iff).mpr h

theorem pairwise_lt_of_le_nodup {key : α → Int} :
    ∀ (l : List α), (l.Pairwise fun a b => key a ≤ key b) → ((l.map key).Nodup) →
      l.Pairwise fun a b => key a < key b := by
  intro l
  induction l with
  | nil => intro _ _; simp
  | cons x xs ih =>
    intro hle hnd
    rcases List.pairwise_cons.mp hle with ⟨hx, hxs⟩
    simp only [List.map_cons, List.nodup_cons] at hnd
    refine List.pairwise_cons.mpr ⟨?_, ih hxs hnd.2⟩
    intro b hb
    have h1 := hx b hb
    have h2 : key x ≠ key b := fun hc => hnd.1 (hc ▸ List.mem_map_of_mem key hb)
    omega

theorem eq_of_perm_of_pairwise_lt {key : α → Int} {l₁ l₂ : List α}
    (hp : List.Perm l₁ l₂)
    (h₁ : l₁.Pairwise fun a b => key a < key b)
    (h₂ : l₂.Pairwise fun a b => key a < key b) : l₁ = l₂ := by
  haveI : IsAntisymm α fun a b => key a < key b :=
    ⟨fun a b hab hba => absurd (hab.trans hba) (lt_irrefl _)⟩
  exact List.eq_of_perm_of_sorted hp h₁ h₂

theorem filter_eq_single_of_keys_nodup {key : α → Int} :
    ∀ (l : List α) (x : α), ((l.map key).Nodup) → x ∈ l →
      (l.filter fun y => key y == key x) = [x] := by
  intro l
  induction l with
  | nil => intro x _ hx; simp at hx
  | cons y ys ih =>
    intro x hnd hx
    simp only [List.map_cons, List.nodup_cons] at hnd
    rcases List.mem_cons.mp hx with rfl | hx'
    · rw [List.filter_cons, if_pos (by simp)]
      have hnil : (ys.filter fun y => key y == key x) = [] := by
        rw [List.filter_eq_nil_iff]
        intro b hb hc
        exact hnd.1 ((beq_iff_eq.mp hc) ▸ List.mem_map_of_mem key hb)
      rw [hnil]
    · have hyx : key y ≠ key x := by
        intro hc
        apply hnd.1
        rw [hc]
        exact List.mem_map_of_mem key hx'
      rw [List.filter_cons, if_neg (by simp [hyx])]
      exact ih x hnd.2 hx'

theorem getLast?_filter_key_eq_some_iff {key : α → Int} {l : List α} {x : α}
    (hnd : (l.map key).Nodup) :
    (l.filter fun y => key y == key x).getLast? = some x ↔ x ∈ l := by
  constructor
  · intro h
    exact List.mem_of_mem_filter (mem_of_getLast?_eq h)
  · intro h
    rw [filter_eq_single_of_keys_nodup l x hnd h]
    rfl

theorem mergeByKey_keys_nodup (key : α → Int) (ex nw : List α) :
    ((mergeByKey key ex nw).map key).Nodup :=
  keys_nodup_of_perm (sortByKey_perm key _) (dedupLastBy_keys_nodup key _)

theorem mergeByKey_pairwise_lt (key : α → Int) (ex nw : List α) :
    (mergeByKey key ex nw).Pairwise fun a b => key a < key b :=
  pairwise_lt_of_le_nodup _ (sortByKey_pairwise_le key _) (mergeByKey_keys_nodup key ex nw)

theorem mem_mergeByKey {key : α → Int} (ex nw : List α) (x : α) :
    x ∈ mergeByKey key ex nw ↔
      ((ex ++ nw).filter fun y => key y == key x).getLast? = some x := by
  rw [mergeByKey, (sortByKey_perm key _).mem_iff, mem_dedupLastBy]

theorem mergeByKey_idem (key : α → Int) (ex nw : List α) :
    mergeByKey key (mergeByKey key ex nw) nw = mergeByKey key ex nw := by
  refine eq_of_perm_of_pairwise_lt ?_ (mergeByKey_pairwise_lt key _ _)
    (mergeByKey_pairwise_lt key _ _)
  refine (List.perm_ext_iff_of_nodup
    (List.Nodup.of_map key (mergeByKey_keys_nodup key _ _))
    (List.Nodup.of_map key (mergeByKey_keys_nodup key _ _))).mpr ?_
  intro x
  rw [mem_mergeByKey, mem_mergeByKey, List.filter_append, List.filter_append]
  by_cases hnwf : (nw.filter fun y => key y == key x) = []
  · rw [hnwf, List.append_nil, List.append_nil]
    rw [getLast?_filter_key_eq_some_iff (mergeByKey_keys_nodup key ex nw)]
    rw [mem_mergeByKey, List.filter_append, hnwf, List.append_nil]
  · rw [List.getLast?_append_of_ne_nil _ hnwf, List.getLast?_append_of_ne_nil _ hnwf]

theorem mergeByKey_filter_last {key : α → Int} (ex nw : List α) (n : α)
    (hnw : (nw.filter fun y => key y == key n) = [n]) :
    ((mergeByKey key ex nw).filter fun y => key y == key n) = [n] := by
  have hn_mem : n ∈ mergeByKey key ex nw := by
    rw [mem_mergeByKey, List.filter_append, hnw]
    rw [List.getLast?_append_of_ne_nil _ (by simp)]
    rfl
  exact filter_eq_single_of_keys_nodup _ n (mergeByKey_keys_nodup key ex nw) hn_mem

theorem dedupFirstBy_ne_nil {key : α → Int} {l : List α} (h : l ≠ []) :
    dedupFirstBy key l [] ≠ [] := by
  cases l with
  | nil => exact absurd rfl h
  | cons y ys => simp [dedupFirstBy]

theorem mergeByKey_ne_nil {key : α → Int} {ex : List α} (nw : List α) (h : ex ≠ []) :
    mergeByKey key ex nw ≠ [] := by
  have h1 : (ex ++ nw).reverse ≠ [] := by
    simp only [ne_eq, List.reverse_eq_nil_iff, List.append_eq_nil]
    rintro ⟨rfl, -⟩
    exact h rfl
  have h2 : dedupLastBy key (ex ++ nw) ≠ [] := by
    rw [dedupLastBy]
    simp only [ne_eq, List.reverse_eq_nil_iff]
    exact dedupFirstBy_ne_nil h1
  intro hc
  have := (sortByKey_perm key (dedupLastBy key (ex ++ nw))).length_eq
  rw [mergeByKey] at hc
  rw [hc] at this
  exact h2 (List.length_eq_zero.mp this.symm)

/-! ## Lemmas about the fetch engine -/

theorem innerLoop_success_spec (p : Int → Nat → Resp) (rl : Nat) (endT cursor : Int) :
    ∀ (fuel ci rc : Nat) (filtered : List Candle),
      (innerLoop p rl endT cursor ci fuel rc).outcome = InnerOutcome.success filtered →
      ∃ i batch, p cursor i = Resp.ok batch ∧
        filtered = batch.filter (fun cd => decide (cd.t < endT)) ∧ filtered ≠ [] := by
  intro fuel
  induction fuel with
  | zero =>
    intro ci rc filtered h
    simp [innerLoop] at h
  | succ fuel ih =>
    intro ci rc filtered h
    rw [innerLoop] at h
    split at h
    next batch heq =>
      by_cases hb : batch.isEmpty
      · rw [if_pos hb] at h
        simp at h
      · rw [if_neg hb] at h
        by_cases hf : (batch.filter fun cd => decide (cd.t < endT)).isEmpty
        · rw [if_pos hf] at h
          simp at h
        · rw [if_neg hf] at h
          simp only [InnerOutcome.success.injEq] at h
          refine ⟨ci, batch, heq, h.symm, ?_⟩
          intro hc
          exact hf (by rw [h.trans hc]; rfl)
    next heq =>
      simp only at h
      exact ih (ci + 1) (rc + 1) filtered h
    next heq =>
      simp only at h
      exact ih (ci + 1) (rc + 1) filtered h
    next heq =>
      simp at h

theorem outerLoop_data_lt (p : Int → Nat → Resp) (rl maxR : Nat) (endT bucket : Int) :
    ∀ (fuel : Nat) (cursor : Int) (ci : Nat) (cd : Candle),
      cd ∈ (outerLoop p rl maxR endT bucket fuel cursor ci).data → cd.t < endT := by
  intro fuel
  induction fuel with
  | zero =>
    intro cursor ci cd h
    simp [outerLoop] at h
  | succ fuel ih =>
    intro cursor ci cd h
    rw [outerLoop] at h
    by_cases hc : cursor < endT
    · rw [if_pos hc] at h
      split at h
      next filtered calls sleeps heq =>
        simp only [List.mem_append] at h
        rcases h with h | h
        · obtain ⟨i, batch, _, hfil, _⟩ :=
            innerLoop_success_spec p rl endT cursor maxR ci 0 filtered (by rw [heq])
          rw [hfil] at h
          have := List.of_mem_filter h
          exact of_decide_eq_true this
        · exact ih _ _ cd h
      next heq => simp at h
      next heq => simp at h
      next heq => simp at h
    · rw [if_neg hc] at h
      simp at h

theorem fetch_final_keys_nodup (l : List Candle) :
    ((sortByKey Candle.t (dedupFirstBy Candle.t l [])).map Candle.t).Nodup :=
  keys_nodup_of_perm (sortByKey_perm Candle.t _) (dedupFirstBy_keys Candle.t l []).1

theorem fetch_final_pairwise (l : List Candle) :
    ((sortByKey Candle.t (dedupFirstBy Candle.t l [])).map Candle.t).Pairwise (· < ·) := by
  rw [List.pairwise_map]
  exact pairwise_lt_of_le_nodup _ (sortByKey_pairwise_le Candle.t _) (fetch_final_keys_nodup l)

theorem mem_fetch_ohlcv_data {p : Int → Nat → Resp} {rl maxR : Nat}
    {startT endT bucket : Int} {fuel : Nat} {cd : Candle}
    (h : cd ∈ fetch_ohlcv_data p rl maxR startT endT bucket fuel) :
    cd ∈ (fetchTrace p rl maxR startT endT bucket fuel).data := by
  rw [fetch_ohlcv_data] at h
  exact mem_of_mem_dedupFirstBy ((sortByKey_perm Candle.t _).mem_iff.mp h)

theorem outerLoop_exit_ne_outOfFuel (p : Int → Nat → Resp) (rl maxR : Nat)
    (endT bucket : Int) (hb : 0 < bucket)
    (H : ∀ (cur : Int) (i : Nat) (batch : List Candle),
        p cur i = Resp.ok batch →
        (batch.filter fun cd => decide (cd.t < endT)) ≠ [] →
        cur ≤ lastT (batch.filter fun cd => decide (cd.t < endT))) :
    ∀ (n fuel : Nat) (cursor : Int) (ci : Nat),
      endT - cursor ≤ (n : Int) * bucket → n ≤ fuel →
      (outerLoop p rl maxR endT bucket fuel cursor ci).exit ≠ ExitKind.outOfFuel := by
  intro n
  induction n with
  | zero =>
    intro fuel cursor ci hle _
    have hc : ¬ cursor < endT := by
      simp only [Nat.cast_zero, zero_mul] at hle
      omega
    cases fuel with
    | zero => simp [outerLoop, hc]
    | succ fuel =>
      rw [outerLoop, if_neg hc]
      simp
  | succ n ih =>
    intro fuel cursor ci hle hfuel
    by_cases hc : cursor < endT
    · cases fuel with
      | zero => omega
      | succ fuel =>
        rw [outerLoop, if_pos hc]
        split
        next filtered calls sleeps heq =>
          obtain ⟨i, batch, hp, hfil, hne⟩ :=
            innerLoop_success_spec p rl endT cursor maxR ci 0 filtered (by rw [heq])
          have hlast : cursor ≤ lastT filtered := by
            rw [hfil]
            exact H cursor i batch hp (hfil ▸ hne)
          show (outerLoop p rl maxR endT bucket fuel
            (lastT filtered + bucket) (ci + calls)).exit ≠ ExitKind.outOfFuel
          apply ih fuel (lastT filtered + bucket) (ci + calls) ?_ (by omega)
          push_cast at hle ⊢
          linarith
        next heq => simp
        next heq => simp
        next heq => simp
    · cases fuel with
      | zero => simp [outerLoop, hc]
      | succ fuel =>
        rw [outerLoop, if_neg hc]
        simp

/-! ## Concrete providers used in scenarios -/

/-- A provider whose every call raises `ccxt.NetworkError`. -/
def providerAlwaysNetErr : Int → Nat → Resp := fun _ _ => Resp.netErr

/-- A single candle at epoch 0. -/
def candleA : Candle := ⟨0, 1, 1, 1, 1, 1⟩

/-- A provider that returns one candle and then reports no more data
(a run that obtained everything available). -/
def providerFinishes : Int → Nat → Resp :=
  fun _ i => if i = 0 then Resp.ok [candleA] else Resp.ok []

/-- A provider that returns one candle and then fails persistently
(a run that obtained a prefix and then hard-stopped). -/
def providerPrefixThenFails : Int → Nat → Resp :=
  fun _ i => if i = 0 then Resp.ok [candleA] else Resp.netErr

/-- A candle at t = 50, used to exhibit a non-advancing cursor. -/
def candleStuck : Candle := ⟨50, 1, 1, 1, 1, 1⟩

/-- A provider that always returns the same single candle at t = 50; once the
cursor has moved past 60 = 50 + bucket, the batch's last in-range candle
predates the cursor and the cursor never advances again. -/
def providerStuck : Int → Nat → Resp := fun _ _ => Resp.ok [candleStuck]

/-- A provider that always answers with an empty batch. -/
def providerEmptyBatch : Int → Nat → Resp := fun _ _ => Resp.ok []

/-- The spec's §8 scenario batch: granularity 1h (bucket = 3600000 ms), five
in-range candles plus a sixth candle exactly at `end_time_ms = 18000000`. -/
def scenarioBatch : List Candle :=
  [⟨0, 1, 1, 1, 1, 1⟩, ⟨3600000, 2, 2, 2, 2, 2⟩, ⟨7200000, 3, 3, 3, 3, 3⟩,
   ⟨10800000, 4, 4, 4, 4, 4⟩, ⟨14400000, 5, 5, 5, 5, 5⟩, ⟨18000000, 6, 6, 6, 6, 6⟩]

/-- The provider that returns the §8 scenario batch on every call. -/
def providerScenario : Int → Nat → Resp := fun _ _ => Resp.ok scenarioBatch

/-- The five candles the §8 scenario fetch must keep (the sixth, at
`end_time_ms`, is dropped). -/
def scenarioKept : List Candle :=
  [⟨0, 1, 1, 1, 1, 1⟩, ⟨3600000, 2, 2, 2, 2, 2⟩, ⟨7200000, 3, 3, 3, 3, 3⟩,
   ⟨10800000, 4, 4, 4, 4, 4⟩, ⟨14400000, 5, 5, 5, 5, 5⟩]

theorem providerStuck_loops_at_60 :
    ∀ (fuel ci : Nat),
      (outerLoop providerStuck 0 3 100 10 fuel 60 ci).exit = ExitKind.outOfFuel := by
  intro fuel
  induction fuel with
  | zero => intro ci; simp [outerLoop]
  | succ fuel ih =>
    intro ci
    have hinner : innerLoop providerStuck 0 100 60 ci 3 0 =
        ⟨InnerOutcome.success [candleStuck], 1, []⟩ := rfl
    rw [outerLoop, if_pos (by norm_num), hinner]
    show (outerLoop providerStuck 0 3 100 10 fuel (lastT [candleStuck] + 10) (ci + 1)).exit
      = ExitKind.outOfFuel
    have hl : lastT [candleStuck] + 10 = 60 := rfl
    rw [hl]
    exact ih (ci + 1)

theorem providerStuck_never_finishes :
    ∀ fuel : Nat,
      (fetchTrace providerStuck 0 3 0 100 10 fuel).exit = ExitKind.outOfFuel := by
  intro fuel
  cases fuel with
  | zero => simp [fetchTrace, outerLoop]
  | succ fuel =>
    rw [fetchTrace]
    have hinner : innerLoop providerStuck 0 100 0 0 3 0 =
        ⟨InnerOutcome.success [candleStuck], 1, []⟩ := rfl
    rw [outerLoop, if_pos (by norm_num), hinner]
    show (outerLoop providerStuck 0 3 100 10 fuel (lastT [candleStuck] + 10) (0 + 1)).exit
      = ExitKind.outOfFuel
    exact (by rfl : lastT [candleStuck] + 10 = 60) ▸ providerStuck_loops_at_60 fuel (0 + 1)

theorem innerLoop_allNetErr (rl : Nat) (e s : Int) (ci : Nat) :
    innerLoop providerAlwaysNetErr rl e s ci 3 0 =
      ⟨InnerOutcome.exhausted, 3,
       [SleepEv.backoff 2, SleepEv.backoff 4, SleepEv.backoff 8]⟩ := rfl

/-! ## Lemmas about the merge store -/

theorem map_key_candleToRow (cs : Str) (isc : Nat) (l : List Candle) :
    ((l.map (candleToRow cs isc)).map Row.open_timestamp_ms) = l.map Candle.t := by
  induction l with
  | nil => rfl
  | cons x xs ih => simp [candleToRow, ih]

theorem filter_ts_map_candleToRow (cs : Str) (isc : Nat) (nd : List Candle) (t : Int) :
    ((nd.map (candleToRow cs isc)).filter fun r => r.open_timestamp_ms == t) =
      (nd.filter fun k => k.t == t).map (candleToRow cs isc) := by
  induction nd with
  | nil => rfl
  | cons k ks ih =>
    by_cases h : k.t = t
    · simp [List.filter_cons, candleToRow, h, ih]
    · simp [List.filter_cons, candleToRow, h, ih]

theorem mergeRows_pairwise (ex nw : List Row) :
    ((mergeRows ex nw).map Row.open_timestamp_ms).Pairwise (· < ·) := by
  rw [List.pairwise_map]
  exact mergeByKey_pairwise_lt Row.open_timestamp_ms ex nw

theorem merge_and_save_incremental_present (nd : List Candle) (exch sym tf dir : Str)
    (existing : List Row) (isc : Nat)
    (htf : timeframeSeconds tf = some isc) (hne : existing ≠ []) :
    (merge_and_save_data nd exch sym tf dir (PriorState.present existing) true).result =
      some (mergeRows existing
        (nd.map (candleToRow (convert_symbol_to_csv_format sym) isc))) := by
  have hlen : existing.length ≠ 0 := fun hc => hne (List.length_eq_zero.mp hc)
  simp [merge_and_save_data, fileExists, load_existing_data, LoadedFrame.height,
    hlen, htf]

theorem save_to_csv_result_spec (data : List Candle) (exch sym tf dir : Str)
    (rows : List Row)
    (h : (save_to_csv data exch sym tf dir).result = some rows) :
    ∃ isc, timeframeSeconds tf = some isc ∧
      rows = data.map (candleToRow (convert_symbol_to_csv_format sym) isc) ∧
      data ≠ [] := by
  rw [save_to_csv.eq_def] at h
  split at h
  · simp at h
  · next x xs =>
    split at h
    · simp at h
    · next isc htf =>
      simp only [Option.some.injEq] at h
      exact ⟨isc, htf, h.symm, by simp⟩

theorem merge_and_save_result_spec (nd : List Candle) (exch sym tf dir : Str)
    (prior : PriorState) (inc : Bool) (rows : List Row)
    (h : (merge_and_save_data nd exch sym tf dir prior inc).result = some rows) :
    (∃ ex nw, rows = mergeRows ex nw) ∨
      ∃ isc, timeframeSeconds tf = some isc ∧
        rows = nd.map (candleToRow (convert_symbol_to_csv_format sym) isc) := by
  rw [merge_and_save_data] at h
  split at h
  · split at h
    next existing_df ld heq =>
      split at h
      · obtain ⟨isc, htf, hr, -⟩ :=
          save_to_csv_result_spec nd exch sym tf dir rows (by simpa [withDiags] using h)
        exact Or.inr ⟨isc, htf, hr⟩
      · split at h
        · simp at h
        · next isc htf =>
          split at h
          · rename_i existing_rows heq2
            simp only [Option.some.injEq] at h
            exact Or.inl ⟨existing_rows, _, h.symm⟩
          · simp at h
    next ld heq =>
      obtain ⟨isc, htf, hr, -⟩ :=
        save_to_csv_result_spec nd exch sym tf dir rows (by simpa [withDiags] using h)
      exact Or.inr ⟨isc, htf, hr⟩
  · obtain ⟨isc, htf, hr, -⟩ := save_to_csv_result_spec nd exch sym tf dir rows h
    exact Or.inr ⟨isc, htf, hr⟩

/-! ## The claims -/

/-- C1: every persisted dataset has unique `open_time_ms` keys and is sorted
strictly ascending: whatever the provider returns, both the non-incremental
save path and the incremental merge path write rows whose
`open_timestamp_ms` values are pairwise distinct and strictly increasing in
file order. -/
theorem claim_C1 (p : Int → Nat → Resp) (rl maxR : Nat) (s e b : Int) (fuel : Nat)
    (exch sym tf dir : Str) (prior : PriorState) (inc : Bool) (rows : List Row)
    (h : (merge_and_save_data (fetch_ohlcv_data p rl maxR s e b fuel)
        exch sym tf dir prior inc).result = some rows) :
    (rows.map Row.open_timestamp_ms).Pairwise (· < ·) := by
  rcases merge_and_save_result_spec _ exch sym tf dir prior inc rows h with
    ⟨ex, nw, rfl⟩ | ⟨isc, htf, rfl⟩
  · exact mergeRows_pairwise ex nw
  · rw [map_key_candleToRow, fetch_ohlcv_data]
    exact fetch_final_pairwise _

/-- Witness for C1 at the §8 scenario: the rows saved non-incrementally for
the five fetched candles have strictly increasing timestamps. -/
theorem claim_C1_witness :
    ((scenarioKept.map (candleToRow (convert_symbol_to_csv_format (str "BTC/USDT")) 3600)).map
        Row.open_timestamp_ms).Pairwise (· < ·) :=
  claim_C1 providerScenario 0 3 0 18000000 3600000 2 (str "binance") (str "BTC/USDT")
    (str "1h") (str "../data") PriorState.absent false
    (scenarioKept.map (candleToRow (convert_symbol_to_csv_format (str "BTC/USDT")) 3600))
    (by decide)

/-- C2: the incremental-merge tie-break is new-data-wins: when the prior
dataset has a row at time `t` and the new fetch also has a candle at `t`, the
merged dataset contains exactly the new candle's values at `t`. -/
theorem claim_C2 (nd : List Candle) (exch sym tf dir : Str) (existing : List Row)
    (t : Int) (er : Row) (cd : Candle) (isc : Nat)
    (htf : timeframeSeconds tf = some isc)
    (her : er ∈ existing) (hert : er.open_timestamp_ms = t)
    (hnd : nd.filter (fun k => k.t == t) = [cd]) :
    (merge_and_save_data nd exch sym tf dir (PriorState.present existing) true).result =
      some (mergeRows existing
        (nd.map (candleToRow (convert_symbol_to_csv_format sym) isc))) ∧
    (mergeRows existing
        (nd.map (candleToRow (convert_symbol_to_csv_format sym) isc))).filter
        (fun r => r.open_timestamp_ms == t) =
      [candleToRow (convert_symbol_to_csv_format sym) isc cd] := by
  have hne := List.ne_nil_of_mem her
  constructor
  · exact merge_and_save_incremental_present nd exch sym tf dir existing isc htf hne
  · have hcdmem : cd ∈ nd.filter (fun k => k.t == t) := by
      rw [hnd]
      exact List.mem_singleton_self cd
    have hcdt : cd.t = t := by
      have hfc := List.of_mem_filter hcdmem
      simpa using hfc
    subst hcdt
    have hnwf : ((nd.map (candleToRow (convert_symbol_to_csv_format sym) isc)).filter
        fun r => r.open_timestamp_ms == cd.t) =
        [candleToRow (convert_symbol_to_csv_format sym) isc cd] := by
      rw [filter_ts_map_candleToRow, hnd]
      rfl
    exact mergeByKey_filter_last existing _
      (candleToRow (convert_symbol_to_csv_format sym) isc cd) hnwf

/-- A prior row at t = 5 with stale values. -/
def rowStale : Row := ⟨str "BTC-USDT", 3600, 5, 9, 9, 9, 9, 9⟩

/-- A re-fetched candle at t = 5 with revised values. -/
def candleRevised : Candle := ⟨5, 2, 3, 4, 5, 6⟩

/-- Witness for C2: merging the revised candle at t = 5 over the stale prior
row keeps exactly the revised values. -/
theorem claim_C2_witness :
    (merge_and_save_data [candleRevised] (str "binance") (str "BTC/USDT") (str "1h")
        (str "../data") (PriorState.present [rowStale]) true).result =
      some (mergeRows [rowStale]
        ([candleRevised].map
          (candleToRow (convert_symbol_to_csv_format (str "BTC/USDT")) 3600))) ∧
    (mergeRows [rowStale]
        ([candleRevised].map
          (candleToRow (convert_symbol_to_csv_format (str "BTC/USDT")) 3600))).filter
        (fun r => r.open_timestamp_ms == 5) =
      [candleToRow (convert_symbol_to_csv_format (str "BTC/USDT")) 3600 candleRevised] :=
  claim_C2 [candleRevised] (str "binance") (str "BTC/USDT") (str "1h") (str "../data")
    [rowStale] 5 rowStale candleRevised 3600 (by decide) (by decide) (by decide) (by decide)

/-- C3: boundary exclusion — the fetch result for `[T0, T1)` never contains a
record with `open_time_ms >= T1`, whatever batches the provider returns. -/
theorem claim_C3 (p : Int → Nat → Resp) (rl maxR : Nat) (s e b : Int) (fuel : Nat)
    (cd : Candle) (h : cd ∈ fetch_ohlcv_data p rl maxR s e b fuel) : cd.t < e :=
  outerLoop_data_lt p rl maxR e b fuel s 0 cd (mem_fetch_ohlcv_data h)

/-- Witness for C3 at the §8 scenario: the provider's single batch carries a
sixth candle exactly at `end_time_ms = 18000000`; the fetch keeps exactly the
five in-range candles, and each member (here the first) is below the bound. -/
theorem claim_C3_witness :
    fetch_ohlcv_data providerScenario 0 3 0 18000000 3600000 2 = scenarioKept ∧
      (⟨0, 1, 1, 1, 1, 1⟩ : Candle).t < 18000000 :=
  ⟨by decide,
   claim_C3 providerScenario 0 3 0 18000000 3600000 2 ⟨0, 1, 1, 1, 1, 1⟩ (by decide)⟩

/-- C4: idempotence of merge — incrementally merging a fetched sequence into
a (nonempty) persisted dataset twice yields the same dataset as merging it
once. -/
theorem claim_C4 (nd : List Candle) (exch sym tf dir : Str) (D r1 r2 : List Row)
    (hD : D ≠ [])
    (h1 : (merge_and_save_data nd exch sym tf dir
        (PriorState.present D) true).result = some r1)
    (h2 : (merge_and_save_data nd exch sym tf dir
        (PriorState.present r1) true).result = some r2) :
    r2 = r1 := by
  cases htf : timeframeSeconds tf with
  | none =>
    have hlen : D.length ≠ 0 := fun hc => hD (List.length_eq_zero.mp hc)
    rw [merge_and_save_data] at h1
    simp [fileExists, load_existing_data, LoadedFrame.height, hlen, htf] at h1
  | some isc =>
    have e1 := merge_and_save_incremental_present nd exch sym tf dir D isc htf hD
    rw [e1] at h1
    injection h1 with h1'
    have hr1ne : r1 ≠ [] := by
      rw [← h1']
      exact mergeByKey_ne_nil _ hD
    have e2 := merge_and_save_incremental_present nd exch sym tf dir r1 isc htf hr1ne
    rw [e2] at h2
    injection h2 with h2'
    rw [← h2', ← h1']
    exact mergeByKey_idem Row.open_timestamp_ms D _

/-- Witness for C4: merging the revised candle into the one-row prior dataset
a second time changes nothing. -/
theorem claim_C4_witness :
    [candleToRow (convert_symbol_to_csv_format (str "BTC/USDT")) 3600 candleRevised] =
      [candleToRow (convert_symbol_to_csv_format (str "BTC/USDT")) 3600 candleRevised] :=
  claim_C4 [candleRevised] (str "binance") (str "BTC/USDT") (str "1h") (str "../data")
    [rowStale]
    [candleToRow (convert_symbol_to_csv_format (str "BTC/USDT")) 3600 candleRevised]
    [candleToRow (convert_symbol_to_csv_format (str "BTC/USDT")) 3600 candleRevised]
    (by decide) (by decide) (by decide)

/-- C5 counterexample: the claim that the fetch returns an explicit error
signal alongside the accumulated data fails — `fetch_ohlcv_data` returns a
bare candle list, and a run that obtained everything the provider had
(`providerFinishes`, loop ended on an empty batch) returns a value equal to
that of a run that obtained a prefix and then exhausted its retries
(`providerPrefixThenFails`), so the caller cannot distinguish the outcomes
from the result. -/
theorem claim_C5_counterexample :
    fetch_ohlcv_data providerPrefixThenFails 0 3 0 200 100 5 =
        fetch_ohlcv_data providerFinishes 0 3 0 200 100 5 ∧
      (fetchTrace providerFinishes 0 3 0 200 100 5).exit = ExitKind.stopEmpty ∧
      (fetchTrace providerPrefixThenFails 0 3 0 200 100 5).exit = ExitKind.exhausted :=
  ⟨by decide, by decide, by decide⟩

/-- C5 (amended): on retry exhaustion or an unclassified failure the fetch
returns whatever was accumulated so far, deduplicated and sorted, as a bare
candle list (diagnostics go only to the console); the return value itself
carries no error signal. -/
theorem claim_C5 (p : Int → Nat → Resp) (rl maxR : Nat) (s e b : Int) (fuel : Nat)
    (h : (fetchTrace p rl maxR s e b fuel).exit = ExitKind.exhausted ∨
      (fetchTrace p rl maxR s e b fuel).exit = ExitKind.stopUnknown) :
    fetch_ohlcv_data p rl maxR s e b fuel =
        sortByKey Candle.t
          (dedupFirstBy Candle.t (fetchTrace p rl maxR s e b fuel).data []) ∧
      ((fetch_ohlcv_data p rl maxR s e b fuel).map Candle.t).Pairwise (· < ·) := by
  refine ⟨rfl, ?_⟩
  rw [fetch_ohlcv_data]
  exact fetch_final_pairwise _

/-- Witness for C5 (amended) with a provider that always fails: the run
exhausts its retries and the returned value is the finalised (empty)
accumulation. -/
theorem claim_C5_witness :
    fetch_ohlcv_data providerAlwaysNetErr 0 3 0 200 100 5 =
        sortByKey Candle.t
          (dedupFirstBy Candle.t
            (fetchTrace providerAlwaysNetErr 0 3 0 200 100 5).data []) ∧
      ((fetch_ohlcv_data providerAlwaysNetErr 0 3 0 200 100 5).map Candle.t).Pairwise
        (· < ·) :=
  claim_C5 providerAlwaysNetErr 0 3 0 200 100 5 (Or.inl (by decide))

/-- C6: with `max_retries = 3` and a provider that always raises a network
error, the engine makes exactly 3 fetch attempts at the starting cursor,
sleeping 2, 4 and 8 time units (2 ^ retry_count after the retry_count-th
failure), and then aborts the whole fetch with no data. -/
theorem claim_C6 (rl : Nat) (s e b : Int) (f : Nat) (hs : s < e) :
    fetchTrace providerAlwaysNetErr rl 3 s e b (f + 1) =
      ⟨[], ExitKind.exhausted, 3,
       [SleepEv.backoff 2, SleepEv.backoff 4, SleepEv.backoff 8]⟩ := by
  rw [fetchTrace, outerLoop, if_pos hs, innerLoop_allNetErr]

/-- Witness for C6 on the concrete range `[0, 1)`. -/
theorem claim_C6_witness :
    fetchTrace providerAlwaysNetErr 0 3 0 1 1 1 =
      ⟨[], ExitKind.exhausted, 3,
       [SleepEv.backoff 2, SleepEv.backoff 4, SleepEv.backoff 8]⟩ :=
  claim_C6 0 0 1 1 0 (by decide)

/-- C7 counterexample: symbol conversion is not a bijection on all strings —
a canonical-form symbol containing `-` does not round-trip (the code maps
`BTC-USDT` to itself and then back to `BTC/USDT`). -/
theorem claim_C7_counterexample :
    convert_csv_to_ccxt_format (convert_symbol_to_csv_format (str "BTC-USDT")) ≠
      str "BTC-USDT" := by decide

/-- C7 (amended): the conversions are mutually inverse on separator-free
content: a provider-form symbol containing no `-` round-trips through the
canonical form, and a canonical-form symbol containing no `/` round-trips
through the provider form. -/
theorem claim_C7 (s : Str) :
    ('-' ∉ s → convert_csv_to_ccxt_format (convert_symbol_to_csv_format s) = s) ∧
    ('/' ∉ s → convert_symbol_to_csv_format (convert_csv_to_ccxt_format s) = s) := by
  constructor
  · intro h
    rw [convert_symbol_to_csv_format, convert_csv_to_ccxt_format, List.map_map]
    conv_rhs => rw [← List.map_id s]
    apply List.map_congr_left
    intro ch hch
    by_cases hc : ch = '/'
    · simp [hc, Function.comp]
    · have hd : ch ≠ '-' := fun hcc => h (hcc ▸ hch)
      simp [Function.comp, hc, hd]
  · intro h
    rw [convert_symbol_to_csv_format, convert_csv_to_ccxt_format, List.map_map]
    conv_rhs => rw [← List.map_id s]
    apply List.map_congr_left
    intro ch hch
    by_cases hc : ch = '-'
    · simp [hc, Function.comp]
    · have hd : ch ≠ '/' := fun hcc => h (hcc ▸ hch)
      simp [Function.comp, hc, hd]

/-- Witness for C7 (amended): `BTC/USDT` and `BTC-USDT` round-trip in their
respective directions. -/
theorem claim_C7_witness :
    convert_csv_to_ccxt_format (convert_symbol_to_csv_format (str "BTC/USDT")) =
        str "BTC/USDT" ∧
      convert_symbol_to_csv_format (convert_csv_to_ccxt_format (str "BTC-USDT")) =
        str "BTC-USDT" :=
  ⟨(claim_C7 (str "BTC/USDT")).1 (by decide), (claim_C7 (str "BTC-USDT")).2 (by decide)⟩

/-- C8 counterexample: the claim fails for a corrupt *but parseable* prior —
a one-row file with header `foo,bar` passes `pl.read_csv` and
`len(existing_df) > 0`, and then `pl.concat` at line 317 raises an uncaught
shape/schema error: the merge terminates with an exception, writes nothing
and prints no warning, while the no-prior run writes the new sequence. -/
theorem claim_C8_counterexample :
    (merge_and_save_data [candleA] (str "binance") (str "BTC/USDT") (str "1h")
        (str "../data") (PriorState.garbled (str "foo,bar") 1) true).raised =
      some PyErr.concatSchemaError ∧
    (merge_and_save_data [candleA] (str "binance") (str "BTC/USDT") (str "1h")
        (str "../data") (PriorState.garbled (str "foo,bar") 1) true).result = none ∧
    Diag.readFailWarning ∉
      (merge_and_save_data [candleA] (str "binance") (str "BTC/USDT") (str "1h")
        (str "../data") (PriorState.garbled (str "foo,bar") 1) true).diags ∧
    (merge_and_save_data [candleA] (str "binance") (str "BTC/USDT") (str "1h")
        (str "../data") PriorState.absent true).result =
      some ([candleA].map
        (candleToRow (convert_symbol_to_csv_format (str "BTC/USDT")) 3600)) :=
  ⟨by decide, by decide, by decide, by decide⟩

/-- C8 (amended): only a prior whose read itself raises inside `pl.read_csv`
degrades gracefully — for such an unreadable prior (and a known timeframe)
the incremental merge raises nothing, produces exactly the no-prior result
and emits the warning-level read-failure diagnostic.  A corrupt but
parseable prior of nonzero length with a non-conforming schema is not
caught: `pl.concat` raises an uncaught shape/schema error, so the merge
terminates with an exception, writes nothing and emits no warning instead
of degrading. -/
theorem claim_C8 (nd : List Candle) (exch sym tf dir : Str) (isc : Nat)
    (htf : timeframeSeconds tf = some isc) :
    ((merge_and_save_data nd exch sym tf dir PriorState.unreadable true).result =
        (merge_and_save_data nd exch sym tf dir PriorState.absent true).result ∧
      Diag.readFailWarning ∈
        (merge_and_save_data nd exch sym tf dir PriorState.unreadable true).diags ∧
      (merge_and_save_data nd exch sym tf dir PriorState.unreadable true).raised =
        none) ∧
    ∀ (desc : Str) (hgt : Nat), hgt ≠ 0 →
      (merge_and_save_data nd exch sym tf dir (PriorState.garbled desc hgt) true).raised =
          some PyErr.concatSchemaError ∧
        (merge_and_save_data nd exch sym tf dir
          (PriorState.garbled desc hgt) true).result = none ∧
        (merge_and_save_data nd exch sym tf dir
          (PriorState.garbled desc hgt) true).effects = [] ∧
        Diag.readFailWarning ∉
          (merge_and_save_data nd exch sym tf dir (PriorState.garbled desc hgt) true).diags := by
  constructor
  · refine ⟨rfl, ?_, ?_⟩
    · simp [merge_and_save_data, fileExists, load_existing_data, withDiags]
    · show (withDiags [Diag.readFailWarning]
        (save_to_csv nd exch sym tf dir)).raised = none
      cases nd with
      | nil => rfl
      | cons x xs => simp [withDiags, save_to_csv, htf]
  · intro desc hgt hh
    rw [merge_and_save_data]
    simp [fileExists, load_existing_data, LoadedFrame.height, hh, htf]

/-- Witness for C8 (amended) on the garbled half: a parseable prior with
header `foo,bar` and one row makes the merge raise the concat schema error
with no write and no warning. -/
theorem claim_C8_witness :
    (merge_and_save_data [candleA] (str "binance") (str "BTC/USDT") (str "1h")
        (str "../data") (PriorState.garbled (str "foo,bar") 1) true).raised =
        some PyErr.concatSchemaError ∧
      (merge_and_save_data [candleA] (str "binance") (str "BTC/USDT") (str "1h")
        (str "../data") (PriorState.garbled (str "foo,bar") 1) true).result = none ∧
      (merge_and_save_data [candleA] (str "binance") (str "BTC/USDT") (str "1h")
        (str "../data") (PriorState.garbled (str "foo,bar") 1) true).effects = [] ∧
      Diag.readFailWarning ∉
        (merge_and_save_data [candleA] (str "binance") (str "BTC/USDT") (str "1h")
          (str "../data") (PriorState.garbled (str "foo,bar") 1) true).diags :=
  (claim_C8 [candleA] (str "binance") (str "BTC/USDT") (str "1h") (str "../data")
    3600 (by decide)).2 (str "foo,bar") 1 (by decide)

/-- C9 counterexample: persistence is not temp-file-plus-rename — saving the
dataset performs exactly a `makedirs` followed by one direct `write_csv` to
the final dataset path, and no rename/replace operation at all. -/
theorem claim_C9_counterexample :
    (save_to_csv [candleA] (str "binance") (str "BTC/USDT") (str "1h")
        (str "../data")).effects =
      [FsOp.makedirs (str "../data"),
       FsOp.writeCsvTo (str "../data/binance_btc-usdt_1h.csv")] ∧
    (save_to_csv [candleA] (str "binance") (str "BTC/USDT") (str "1h")
        (str "../data")).effects.countP FsOp.isRen = 0 :=
  ⟨by decide, by decide⟩

/-- C9 (amended): every write of a dataset — initial save and incremental
merge alike — either does nothing (nothing to save) or performs exactly
`os.makedirs` followed by a single direct `write_csv` to the final dataset
path; no temporary location and no rename/replace is ever used, so the store
itself provides no atomicity against concurrent readers. -/
theorem claim_C9 (nd : List Candle) (exch sym tf dir : Str)
    (prior : PriorState) (inc : Bool) :
    (merge_and_save_data nd exch sym tf dir prior inc).effects = [] ∨
      (merge_and_save_data nd exch sym tf dir prior inc).effects =
        [FsOp.makedirs dir,
         FsOp.writeCsvTo (dataset_path exch (convert_symbol_to_csv_format sym) tf dir)] := by
  have hsave : ∀ d : List Candle,
      (save_to_csv d exch sym tf dir).effects = [] ∨
        (save_to_csv d exch sym tf dir).effects =
          [FsOp.makedirs dir,
           FsOp.writeCsvTo (dataset_path exch (convert_symbol_to_csv_format sym) tf dir)] := by
    intro d
    rw [save_to_csv.eq_def]
    split
    · exact Or.inl rfl
    · split
      · exact Or.inl rfl
      · exact Or.inr rfl
  rw [merge_and_save_data]
  split
  · split
    next existing_df ld heq =>
      split
      · simpa [withDiags] using hsave nd
      · split
        · exact Or.inl rfl
        · split
          · exact Or.inr rfl
          · exact Or.inl rfl
    next ld heq => simpa [withDiags] using hsave nd
  · exact hsave nd

/-- C10: termination of the pagination loop needs cursor progress as a
precondition.  First conjunct: if every successful nonempty filtered batch
the provider can return at a cursor has its last in-range timestamp at or
beyond that cursor, then `ceil((end - start) / bucket)` outer iterations of
fuel suffice — the loop never runs out of fuel.  Second conjunct: the
precondition is necessary — `providerStuck` always answers with a candle at
t = 50, so once the cursor reaches 60 the batch's last in-range candle
predates the cursor, the cursor never advances, and the loop exhausts any
amount of fuel. -/
theorem claim_C10 :
    (∀ (p : Int → Nat → Resp) (rl maxR : Nat) (s e b : Int) (fuel : Nat),
        0 < b →
        (∀ (cur : Int) (i : Nat) (batch : List Candle),
            p cur i = Resp.ok batch →
            (batch.filter fun cd => decide (cd.t < e)) ≠ [] →
            cur ≤ lastT (batch.filter fun cd => decide (cd.t < e))) →
        ((e - s).toNat + (b.toNat - 1)) / b.toNat ≤ fuel →
        (fetchTrace p rl maxR s e b fuel).exit ≠ ExitKind.outOfFuel) ∧
      ∀ fuel : Nat,
        (fetchTrace providerStuck 0 3 0 100 10 fuel).exit = ExitKind.outOfFuel := by
  constructor
  · intro p rl maxR s e b fuel hb H hfuel
    have key : ∀ qm m r a : Nat, 0 < m → qm + r = a + (m - 1) → r < m → a ≤ qm := by
      intro qm m r a h1 h2 h3
      omega
    have hmb : (b.toNat : Int) = b := Int.toNat_of_nonneg hb.le
    have hm0 : 0 < b.toNat := by omega
    have hdiv := Nat.div_add_mod ((e - s).toNat + (b.toNat - 1)) b.toNat
    have hmod := Nat.mod_lt ((e - s).toNat + (b.toNat - 1)) hm0
    have haN : (e - s).toNat ≤
        (((e - s).toNat + (b.toNat - 1)) / b.toNat) * b.toNat := by
      refine key _ b.toNat (((e - s).toNat + (b.toNat - 1)) % b.toNat) _ hm0 ?_ hmod
      rw [Nat.mul_comm] at hdiv
      exact hdiv
    have hBound : e - s ≤
        (((((e - s).toNat + (b.toNat - 1)) / b.toNat : Nat)) : Int) * b := by
      calc e - s ≤ ((e - s).toNat : Int) := Int.self_le_toNat _
        _ ≤ (((((e - s).toNat + (b.toNat - 1)) / b.toNat) * b.toNat : Nat) : Int) := by
              exact_mod_cast haN
        _ = ((((e - s).toNat + (b.toNat - 1)) / b.toNat : Nat) : Int) * (b.toNat : Int) := by
              push_cast
              ring
        _ = ((((e - s).toNat + (b.toNat - 1)) / b.toNat : Nat) : Int) * b := by rw [hmb]
    exact outerLoop_exit_ne_outOfFuel p rl maxR e b hb H
      (((e - s).toNat + (b.toNat - 1)) / b.toNat) fuel s 0 hBound hfuel
  · exact providerStuck_never_finishes

/-- Witness for C10's conditional part: a provider that immediately reports
no data satisfies the progress precondition vacuously, and with
ceil((10 - 0) / 10) = 1 unit of fuel the loop finishes. -/
theorem claim_C10_witness :
    (fetchTrace providerEmptyBatch 0 3 0 10 10 1).exit ≠ ExitKind.outOfFuel :=
  claim_C10.1 providerEmptyBatch 0 3 0 10 10 1 (by decide)
    (fun cur i batch hp hne => by
      simp only [providerEmptyBatch, Resp.ok.injEq] at hp
      rw [← hp] at hne
      simp at hne)
    (by decide)
